import Mathlib

/-!
# Verification of `go/api-pagination-call.go`

A shallow embedding of `makeSubsequentRequests` together with the parts of the Go
runtime it relies on (`int` arithmetic, `fmt` formatting, `http.Get`,
`ioutil.ReadAll`, `defer`), followed by theorems about the embedding.
-/

namespace ApiPagination

/-! ## Go `int`: 64-bit two's complement -/

/-- Largest value of a Go `int` on a 64-bit platform. -/
def maxInt : Int := 9223372036854775807

/-- Smallest value of a Go `int` on a 64-bit platform. -/
def minInt : Int := -9223372036854775808

/-- Reduction of a mathematical integer into the `int` range: the result of a Go
`int` operation whose exact value is `x` (overflow wraps around silently). -/
def wrapInt (x : Int) : Int :=
  (x + 9223372036854775808) % 18446744073709551616 - 9223372036854775808

/-! ## `fmt`: the verbs `%s` and `%d`, `Sprintf` and `Println` -/

/-- The ASCII digit for `d < 10`. -/
def digitChar (d : Nat) : Char := Char.ofNat (48 + d)

/-- Base-10 digits of `u`, as `fmt` produces them: the last digit is `u % 10`, the
digits before it are those of `u / 10`, and a value below ten is a single digit.
The first argument bounds the number of digits. -/
def decDigits : Nat → Nat → List Char
  | 0, _ => []
  | fuel + 1, u =>
    if 10 ≤ u then decDigits fuel (u / 10) ++ [digitChar (u % 10)] else [digitChar u]

/-- The verb `%d` on an unsigned magnitude. -/
def fmtUint (u : Nat) : List Char := decDigits (u + 1) u

/-- The verb `%d` on an `int`: a minus sign for a negative value, then the digits
of the magnitude. -/
def fmtInt (i : Int) : List Char :=
  if i < 0 then '-' :: fmtUint i.natAbs else fmtUint i.natAbs

/-- An operand of a `fmt` call. An `error` operand is represented by the text its
`Error()` method returns, which is what `fmt` prints for it. -/
inductive Arg where
  | str (s : String)
  | int (i : Int)

/-- Output of one verb applied to one operand (only the combinations this program
uses: `%s` on a string, `%d` on an `int`). -/
def formatVerb (verb : Char) : Arg → Option (List Char)
  | .str s => if verb = 's' then some s.data else none
  | .int i => if verb = 'd' then some (fmtInt i) else none

/-- Expansion of a format string: text is copied, `%s` and `%d` consume the next
operand. -/
def formatArgs : List Char → List Arg → List Char
  | [], _ => []
  | [c], _ => [c]
  | c :: verb :: fmt, [] => c :: formatArgs (verb :: fmt) []
  | c :: verb :: fmt, a :: args =>
    match (if c = '%' then formatVerb verb a else none) with
    | some out => out ++ formatArgs fmt args
    | none => c :: formatArgs (verb :: fmt) (a :: args)

/-- Model of `fmt.Sprintf`. -/
def Sprintf (format : String) (args : List Arg) : String :=
  String.mk (formatArgs format.data args)

/-- Default formatting of an operand (`%v`), as used by `Println`. -/
def formatDefault : Arg → List Char
  | .str s => s.data
  | .int i => fmtInt i

/-- Operands of `Println`: separated by single spaces. -/
def joinArgs : List Arg → List Char
  | [] => []
  | [a] => formatDefault a
  | a :: rest => formatDefault a ++ ' ' :: joinArgs rest

/-- Text written by `fmt.Println`: the operands separated by spaces, then a
newline. -/
def Sprintln (args : List Arg) : String :=
  String.mk (joinArgs args ++ ['\n'])

/-! ## The environment: `http.Get` and `ioutil.ReadAll` -/

/-- What `http.Get` hands back when it succeeds. `readErr` is the error, if any,
that `ioutil.ReadAll` returns on the body; `body` are the bytes it delivers. -/
structure Response where
  statusCode : Nat
  header : List (String × String)
  body : List Nat
  readErr : Option String

/-- Result pair of `http.Get`: an error (text of `err.Error()`), or a response. -/
inductive GetResult where
  | error (err : String)
  | ok (response : Response)

/-- The network. The `n`-th call of `http.Get` in a run (counted from 1), made with
`url`, returns `env n url`. -/
abbrev Env := Nat → String → GetResult

/-! ## Observable events of a run -/

/-- Events of a run, in program order. Response bodies are named by the ordinal of
the `http.Get` call that returned them. -/
inductive Event where
  /-- The loop condition is evaluated with the loop variable holding `value`. -/
  | page (value : Int)
  /-- Call of `http.Get(url)`, in the iteration whose loop variable is `page`. -/
  | get (page : Int) (url : String)
  /-- The call returned a response; its body `h` is now open. -/
  | opened (h : Nat)
  /-- Call of `ioutil.ReadAll` on body `h`. -/
  | readAll (h : Nat)
  /-- The `text` is written to standard output. -/
  | print (text : String)
  /-- Call of `Body.Close()` on body `h`. -/
  | close (h : Nat)
  deriving DecidableEq

/-- A run observed for a bounded number of loop iterations: the events so far and
whether the function has returned. -/
structure Run where
  events : List Event
  returned : Bool
  deriving DecidableEq

/-- Prefix a run with earlier events. -/
def Run.after (pre : List Event) (r : Run) : Run :=
  { events := pre ++ r.events, returned := r.returned }

/-- Function return: the deferred calls run, last deferred first. `deferred` is the
defer stack with the most recent entry at the head. -/
def runDeferred (deferred : List Nat) : Run :=
  { events := deferred.map Event.close, returned := true }

/-! ## The program -/

/-- The `for` loop of `makeSubsequentRequests`. `fuel` bounds the number of times
the loop condition is evaluated; `page` is the loop variable, `issued` the number
of `http.Get` calls made so far, `deferred` the defer stack. -/
def loop (env : Env) (baseUrl endpointPath start end_ : String) (totalPages : Int) :
    Nat → Int → Nat → List Nat → Run
  | 0, _, _, _ => { events := [], returned := false }
  | fuel + 1, page, issued, deferred =>
    if page ≤ totalPages then
      let url := Sprintf "%s/%s?startTime=%s&endTime=%s&page=%d"
        [.str baseUrl, .str endpointPath, .str start, .str end_, .int page]
      match env (issued + 1) url with
      | .error err =>
        (runDeferred deferred).after
          [.page page, .get page url, .print (Sprintln [.str "Error:", .str err])]
      | .ok response =>
        let deferred := (issued + 1) :: deferred
        match response.readErr with
        | some err =>
          (runDeferred deferred).after
            [.page page, .get page url, .opened (issued + 1), .readAll (issued + 1),
             .print (Sprintln [.str "Error reading response body:", .str err])]
        | none =>
          (loop env baseUrl endpointPath start end_ totalPages
              fuel (wrapInt (page + 1)) (issued + 1) deferred).after
            [.page page, .get page url, .opened (issued + 1), .readAll (issued + 1),
             .print (Sprintf "Page %d processed. New startTime: %s, new endTime: %s\n"
               [.int page, .str start, .str end_])]
    else
      (runDeferred deferred).after [.page page]

/-- The function `makeSubsequentRequests`, observed for at most `fuel` evaluations
of the loop condition. -/
def makeSubsequentRequests (fuel : Nat) (env : Env)
    (baseUrl endpointPath start end_ : String) (totalPages : Int) : Run :=
  loop env baseUrl endpointPath start end_ totalPages fuel 1 0 []

/-! ## Projections of a trace -/

/-- URLs of the `http.Get` calls, in order. -/
def requests (evs : List Event) : List String :=
  evs.filterMap fun e => match e with
    | .get _ url => some url
    | _ => none

/-- Texts written to standard output, in order. -/
def output (evs : List Event) : List String :=
  evs.filterMap fun e => match e with
    | .print text => some text
    | _ => none

/-- Values the loop variable held at the evaluations of the loop condition. -/
def pages (evs : List Event) : List Int :=
  evs.filterMap fun e => match e with
    | .page v => some v
    | _ => none

/-- Bodies opened, in order. -/
def opens (evs : List Event) : List Nat :=
  evs.filterMap fun e => match e with
    | .opened h => some h
    | _ => none

/-- Bodies closed, in order. -/
def closes (evs : List Event) : List Nat :=
  evs.filterMap fun e => match e with
    | .close h => some h
    | _ => none

/-- An environment in which every call succeeds with status 200 and an empty
body. -/
def okEnv : Env := fun _ _ =>
  .ok { statusCode := 200, header := [], body := [], readErr := none }


/-- Pairs of loop variable value and URL of the `http.Get` calls, in order. -/
def gets (evs : List Event) : List (Int × String) :=
  evs.filterMap fun e => match e with
    | .get page url => some (page, url)
    | _ => none

/-! ## The formats of the specification -/

/-- The URL template `{baseUrl}/{endpointPath}?startTime={start}&endTime={end}&page={page}`,
the page given by its rendered text. -/
def urlTemplate (baseUrl endpointPath start end_ page : String) : String :=
  baseUrl ++ "/" ++ endpointPath ++ "?startTime=" ++ start ++ "&endTime=" ++ end_
    ++ "&page=" ++ page

/-- The status line `Page {page} processed. New startTime: {start}, new endTime: {end}`,
with its line terminator. -/
def statusLine (page start end_ : String) : String :=
  "Page " ++ page ++ " processed. New startTime: " ++ start ++ ", new endTime: " ++ end_
    ++ "\n"

/-- The line `Error: {err}`, with its line terminator. -/
def transportErrorLine (err : String) : String := "Error: " ++ err ++ "\n"

/-- The line `Error reading response body: {err}`, with its line terminator. -/
def bodyReadErrorLine (err : String) : String :=
  "Error reading response body: " ++ err ++ "\n"

/-- Rendering of an `int` by `%d`, as a string. -/
def dec (p : Int) : String := String.mk (fmtInt p)


/-! ## Shapes of traces -/

/-- Events of one iteration in which the request and the body read succeed; `h` is
the ordinal of the request. -/
def okIteration (baseUrl endpointPath start end_ : String) (page : Int) (h : Nat) :
    List Event :=
  [.page page, .get page (urlTemplate baseUrl endpointPath start end_ (dec page)),
   .opened h, .readAll h, .print (statusLine (dec page) start end_)]

/-- Events of `m` consecutive successful iterations, the first with loop variable
`page` after `issued` earlier requests. -/
def okIterations (baseUrl endpointPath start end_ : String) :
    Int → Nat → Nat → List Event
  | _, _, 0 => []
  | page, issued, m + 1 =>
    okIteration baseUrl endpointPath start end_ page (issued + 1)
      ++ okIterations baseUrl endpointPath start end_ (page + 1) (issued + 1) m

/-- The defer stack after `m` further successful requests. -/
def pushed : Nat → List Nat → Nat → List Nat
  | _, deferred, 0 => deferred
  | issued, deferred, m + 1 => pushed (issued + 1) ((issued + 1) :: deferred) m

/-- The request and the body read of the `j`-th call succeed when made for page `p`. -/
def Succeeds (env : Env) (b ep s e : String) (j : Nat) (p : Int) : Prop :=
  ∃ r, env j (urlTemplate b ep s e (dec p)) = .ok r ∧ r.readErr = none


/-- An environment in which the `k`-th request fails with the transport error
`err` and every other call succeeds. -/
def failAt (k : Nat) (err : String) : Env := fun n url =>
  if n = k then .error err else okEnv n url

/-- An environment in which the body read of the `k`-th response fails with `err`
and every other call succeeds. -/
def readFailAt (k : Nat) (err : String) : Env := fun n url =>
  if n = k then .ok { statusCode := 200, header := [], body := [], readErr := some err }
  else okEnv n url

/-- Every request and every body read succeeds in `env`. -/
def AllSucceed (env : Env) : Prop :=
  ∀ (n : Nat) (url : String), ∃ r, env n url = .ok r ∧ r.readErr = none

/-- The two ways a page can fail, with the error value. -/
inductive Failure where
  | transport (err : String)
  | bodyRead (err : String)
  deriving DecidableEq

/-- Whether the request or the body read of a call fails, and with which error;
status code, headers and body bytes are left out. -/
def failureOf : GetResult → Option Failure
  | .error err => some (.transport err)
  | .ok response => response.readErr.map Failure.bodyRead

/-- An environment in which every call succeeds with the given status code,
headers and body. -/
def constEnv (statusCode : Nat) (header : List (String × String)) (body : List Nat) : Env :=
  fun _ _ => .ok { statusCode := statusCode, header := header, body := body, readErr := none }

/-- Whether `http.Get` returned a response. -/
def isOk : GetResult → Bool
  | .ok _ => true
  | .error _ => false

/-- Ordinals of those requests, among `reqs` made after `n` earlier ones, to which
the environment answers with a response. -/
def successfulFrom (env : Env) : Nat → List (Int × String) → List Nat
  | _, [] => []
  | n, (_, url) :: rest =>
    if isOk (env (n + 1) url) then (n + 1) :: successfulFrom env (n + 1) rest
    else successfulFrom env (n + 1) rest

/-- Ordinals of the requests of a trace whose GET succeeded. -/
def successfulGets (env : Env) (evs : List Event) : List Nat :=
  successfulFrom env 0 (gets evs)

/-- For each `http.Get` call of a trace, the bodies that are open at the moment
of the call; `acc` are the bodies open before the trace. -/
def openAtGets : List Nat → List Event → List (List Nat)
  | _, [] => []
  | acc, .get _ _ :: evs => acc :: openAtGets acc evs
  | acc, .opened h :: evs => openAtGets (h :: acc) evs
  | acc, .close h :: evs => openAtGets (acc.erase h) evs
  | acc, .page _ :: evs => openAtGets acc evs
  | acc, .readAll _ :: evs => openAtGets acc evs
  | acc, .print _ :: evs => openAtGets acc evs

/-! ## Decimal numerals -/

/-- Value denoted by a string of decimal digits. -/
def digitsValue (cs : List Char) : Nat :=
  cs.foldl (fun acc c => 10 * acc + (c.toNat - 48)) 0

/-- The characters `cs` are the base-10 numeral of `n` without leading zeros. -/
def IsNumeral (cs : List Char) (n : Nat) : Prop :=
  cs ≠ [] ∧ (∀ c ∈ cs, c.isDigit = true) ∧ (cs.head? = some '0' → cs = ['0'])
    ∧ digitsValue cs = n

/-- The characters `cs` are the base-10 numeral of the integer `i`: a minus sign
for a negative value, then the numeral of the magnitude. -/
def IsIntNumeral (cs : List Char) (i : Int) : Prop :=
  if i < 0 then ∃ ds, cs = '-' :: ds ∧ IsNumeral ds i.natAbs else IsNumeral cs i.natAbs

/-! ## Query strings and percent-encoding -/

/-- Characters that may stand unescaped in a query value: letters, digits, `-`,
`.`, `_` and `~`. -/
def unreserved (c : Char) : Bool :=
  (48 ≤ c.toNat && c.toNat ≤ 57) || (65 ≤ c.toNat && c.toNat ≤ 90)
    || (97 ≤ c.toNat && c.toNat ≤ 122)
    || c.toNat = 45 || c.toNat = 46 || c.toNat = 95 || c.toNat = 126

/-- The UTF-8 bytes of a character. -/
def utf8 (c : Char) : List Nat :=
  if c.toNat < 128 then [c.toNat]
  else if c.toNat < 2048 then [192 + c.toNat / 64, 128 + c.toNat % 64]
  else if c.toNat < 65536 then
    [224 + c.toNat / 4096, 128 + c.toNat / 64 % 64, 128 + c.toNat % 64]
  else
    [240 + c.toNat / 262144, 128 + c.toNat / 4096 % 64, 128 + c.toNat / 64 % 64,
     128 + c.toNat % 64]

/-- The UTF-8 bytes of a text. -/
def utf8Bytes (cs : List Char) : List Nat := cs.flatMap utf8

/-- Upper-case hexadecimal digit of `n < 16`. -/
def hexDigit (n : Nat) : Char :=
  if n < 10 then Char.ofNat (48 + n) else Char.ofNat (55 + n)

/-- Percent-encoding of a query value: every character that is not allowed
unescaped is replaced by `%XX` for each of its UTF-8 bytes. -/
def encode (cs : List Char) : List Char :=
  cs.flatMap fun c =>
    if unreserved c then [c]
    else (utf8 c).flatMap fun byte => ['%', hexDigit (byte / 16), hexDigit (byte % 16)]

/-- Value of a hexadecimal digit. -/
def hexValue (c : Char) : Option Nat :=
  if 48 ≤ c.toNat ∧ c.toNat ≤ 57 then some (c.toNat - 48)
  else if 65 ≤ c.toNat ∧ c.toNat ≤ 70 then some (c.toNat - 55)
  else if 97 ≤ c.toNat ∧ c.toNat ≤ 102 then some (c.toNat - 87)
  else none

/-- Decoding of a query value into bytes: `%XX` is the byte `XX`, `+` is a space,
any other character stands for itself; `none` for a malformed escape. -/
def unescape : List Char → Option (List Nat)
  | [] => some []
  | c :: rest =>
    if c = '%' then
      match rest with
      | hi :: lo :: rest' =>
        match hexValue hi, hexValue lo, unescape rest' with
        | some a, some b, some bytes => some ((16 * a + b) :: bytes)
        | _, _, _ => none
      | _ => none
    else if c = '+' then (unescape rest).map fun bytes => 32 :: bytes
    else (unescape rest).map fun bytes => utf8 c ++ bytes

/-- The text before the first `sep`, and the text after it when there is one. -/
def cut (sep : Char) : List Char → List Char × Option (List Char)
  | [] => ([], none)
  | c :: cs =>
    if c = sep then ([], some cs) else ((c :: (cut sep cs).1), (cut sep cs).2)

/-- The pieces between the occurrences of `sep`. -/
def splitOn (sep : Char) : List Char → List (List Char)
  | [] => [[]]
  | c :: cs =>
    if c = sep then [] :: splitOn sep cs
    else
      match splitOn sep cs with
      | [] => [[c]]
      | piece :: pieces => (c :: piece) :: pieces

/-- The query string of a URL: what follows the first `?`, once the fragment (from
the first `#` on) is removed. -/
def rawQuery (url : List Char) : List Char :=
  ((cut '?' (cut '#' url).1).2).getD []

/-- The parameters of a query string, in order: the non-empty pieces between `&`,
each divided at its first `=` into name and (still encoded) value. -/
def queryParams (query : List Char) : List (List Char × List Char) :=
  ((splitOn '&' query).filter fun piece => !piece.isEmpty).map fun piece =>
    ((cut '=' piece).1, ((cut '=' piece).2).getD [])
/-! ## Formatting lemmas -/

theorem Sprintf_url (b ep s e : String) (p : Int) :
    Sprintf "%s/%s?startTime=%s&endTime=%s&page=%d"
      [.str b, .str ep, .str s, .str e, .int p] = urlTemplate b ep s e (dec p) := by
  apply String.ext
  simp [urlTemplate, dec, Sprintf, formatArgs, formatVerb]

theorem Sprintf_status (s e : String) (p : Int) :
    Sprintf "Page %d processed. New startTime: %s, new endTime: %s\n"
      [.int p, .str s, .str e] = statusLine (dec p) s e := by
  apply String.ext
  simp [statusLine, dec, Sprintf, formatArgs, formatVerb]

theorem Sprintln_transport (err : String) :
    Sprintln [.str "Error:", .str err] = transportErrorLine err := by
  apply String.ext
  simp [Sprintln, joinArgs, formatDefault, transportErrorLine]

theorem Sprintln_bodyRead (err : String) :
    Sprintln [.str "Error reading response body:", .str err] = bodyReadErrorLine err := by
  apply String.ext
  simp [Sprintln, joinArgs, formatDefault, bodyReadErrorLine]

theorem errorLines_differ (e1 e2 : String) :
    bodyReadErrorLine e2 ≠ transportErrorLine e1 := by
  intro h
  have := congrArg String.data h
  simp [transportErrorLine, bodyReadErrorLine] at this

/-! ## One step of the loop -/

section Step

variable (env : Env) (b ep s e : String) (tp : Int)

theorem wrapInt_of_range {x : Int} (h1 : minInt ≤ x) (h2 : x ≤ maxInt) : wrapInt x = x := by
  unfold wrapInt
  unfold minInt at h1
  unfold maxInt at h2
  omega

theorem wrapInt_range (x : Int) : minInt ≤ wrapInt x ∧ wrapInt x ≤ maxInt := by
  unfold wrapInt minInt maxInt
  omega

theorem loop_exit (fuel : Nat) (page : Int) (issued : Nat) (d : List Nat)
    (h : ¬ page ≤ tp) :
    loop env b ep s e tp (fuel + 1) page issued d = (runDeferred d).after [.page page] := by
  rw [loop]
  simp [h]

theorem loop_transport (fuel : Nat) (page : Int) (issued : Nat) (d : List Nat) (err : String)
    (h : page ≤ tp)
    (he : env (issued + 1) (urlTemplate b ep s e (dec page)) = .error err) :
    loop env b ep s e tp (fuel + 1) page issued d =
      (runDeferred d).after [.page page, .get page (urlTemplate b ep s e (dec page)),
        .print (transportErrorLine err)] := by
  rw [loop]
  simp [h, Sprintf_url, he, Sprintln_transport]

theorem loop_bodyRead (fuel : Nat) (page : Int) (issued : Nat) (d : List Nat)
    (r : Response) (err : String) (h : page ≤ tp)
    (he : env (issued + 1) (urlTemplate b ep s e (dec page)) = .ok r)
    (hr : r.readErr = some err) :
    loop env b ep s e tp (fuel + 1) page issued d =
      (runDeferred ((issued + 1) :: d)).after
        [.page page, .get page (urlTemplate b ep s e (dec page)), .opened (issued + 1),
         .readAll (issued + 1), .print (bodyReadErrorLine err)] := by
  rw [loop]
  simp [h, Sprintf_url, he, hr, Sprintln_bodyRead]

theorem loop_ok (fuel : Nat) (page : Int) (issued : Nat) (d : List Nat)
    (r : Response) (h : page ≤ tp)
    (he : env (issued + 1) (urlTemplate b ep s e (dec page)) = .ok r)
    (hr : r.readErr = none) :
    loop env b ep s e tp (fuel + 1) page issued d =
      (loop env b ep s e tp fuel (wrapInt (page + 1)) (issued + 1) ((issued + 1) :: d)).after
        (okIteration b ep s e page (issued + 1)) := by
  rw [loop]
  simp [h, Sprintf_url, he, hr, Sprintf_status, okIteration]

theorem after_after (a c : List Event) (r : Run) :
    (r.after a).after c = r.after (c ++ a) := by
  simp [Run.after]

theorem after_nil (r : Run) : r.after [] = r := by
  simp [Run.after]

theorem loop_ok_iterate (m : Nat) : ∀ (fuel : Nat) (page : Int) (issued : Nat) (d : List Nat),
    minInt ≤ page → page + m ≤ maxInt → page + m ≤ tp + 1 →
    (∀ j : Nat, j < m → Succeeds env b ep s e (issued + j + 1) (page + j)) →
    loop env b ep s e tp (fuel + m) page issued d =
      (loop env b ep s e tp fuel (page + m) (issued + m) (pushed issued d m)).after
        (okIterations b ep s e page issued m) := by
  induction m with
  | zero =>
    intro fuel page issued d _ _ _ _
    simp [okIterations, pushed, after_nil]
  | succ m ih =>
    intro fuel page issued d hlo hhi htp hok
    obtain ⟨r, hr1, hr2⟩ := hok 0 (Nat.succ_pos m)
    simp only [Nat.cast_zero, add_zero] at hr1
    have hle : page ≤ tp := by push_cast at htp; omega
    have hw : wrapInt (page + 1) = page + 1 := by
      apply wrapInt_of_range
      · omega
      · push_cast at hhi; omega
    rw [show fuel + (m + 1) = (fuel + m) + 1 by omega, loop_ok env b ep s e tp _ _ _ _ r hle hr1 hr2, hw]
    rw [ih fuel (page + 1) (issued + 1) ((issued + 1) :: d) (by omega)
      (by push_cast at hhi; omega) (by push_cast at htp; omega)]
    · rw [after_after]
      simp only [okIterations, pushed]
      congr 2
      · push_cast; ring
      · omega
    · intro j hj
      have := hok (j + 1) (by omega)
      have e1 : issued + 1 + j + 1 = issued + (j + 1) + 1 := by omega
      have e2 : page + 1 + (j : Int) = page + ((j + 1 : Nat) : Int) := by push_cast; ring
      rw [e1, e2]
      exact this


end Step

/-! ## Projections of successful iterations -/

theorem gets_append (a c : List Event) : gets (a ++ c) = gets a ++ gets c := by
  simp [gets, List.filterMap_append]

theorem output_append (a c : List Event) : output (a ++ c) = output a ++ output c := by
  simp [output, List.filterMap_append]

theorem pages_append (a c : List Event) : pages (a ++ c) = pages a ++ pages c := by
  simp [pages, List.filterMap_append]

theorem opens_append (a c : List Event) : opens (a ++ c) = opens a ++ opens c := by
  simp [opens, List.filterMap_append]

theorem closes_append (a c : List Event) : closes (a ++ c) = closes a ++ closes c := by
  simp [closes, List.filterMap_append]

theorem gets_closes (d : List Nat) : gets (d.map Event.close) = [] := by
  induction d with
  | nil => rfl
  | cons h t ih => simp [gets]

theorem output_closes (d : List Nat) : output (d.map Event.close) = [] := by
  induction d with
  | nil => rfl
  | cons h t ih => simp [output]

theorem pages_closes (d : List Nat) : pages (d.map Event.close) = [] := by
  induction d with
  | nil => rfl
  | cons h t ih => simp [pages]

theorem opens_closes (d : List Nat) : opens (d.map Event.close) = [] := by
  induction d with
  | nil => rfl
  | cons h t ih => simp [opens]

theorem closes_closes (d : List Nat) : closes (d.map Event.close) = d := by
  induction d with
  | nil => rfl
  | cons h t ih => simpa [closes] using ih

theorem gets_okIterations (b ep s e : String) (m : Nat) : ∀ (page : Int) (issued : Nat),
    gets (okIterations b ep s e page issued m) =
      (List.range m).map fun (i : Nat) => (page + (i : Int), urlTemplate b ep s e (dec (page + i))) := by
  induction m with
  | zero => intro page issued; rfl
  | succ m ih =>
    intro page issued
    rw [okIterations, gets_append, ih, List.range_succ_eq_map]
    simp [gets, okIteration, Function.comp_def, add_assoc, add_comm (1 : Int)]

theorem output_okIterations (b ep s e : String) (m : Nat) : ∀ (page : Int) (issued : Nat),
    output (okIterations b ep s e page issued m) =
      (List.range m).map fun (i : Nat) => statusLine (dec (page + (i : Int))) s e := by
  induction m with
  | zero => intro page issued; rfl
  | succ m ih =>
    intro page issued
    rw [okIterations, output_append, ih, List.range_succ_eq_map]
    simp [output, okIteration, Function.comp_def, add_assoc, add_comm (1 : Int)]

theorem pages_okIterations (b ep s e : String) (m : Nat) : ∀ (page : Int) (issued : Nat),
    pages (okIterations b ep s e page issued m) =
      (List.range m).map fun (i : Nat) => page + (i : Int) := by
  induction m with
  | zero => intro page issued; rfl
  | succ m ih =>
    intro page issued
    rw [okIterations, pages_append, ih, List.range_succ_eq_map]
    simp [pages, okIteration, Function.comp_def, add_assoc, add_comm (1 : Int)]

theorem opens_okIterations (b ep s e : String) (m : Nat) : ∀ (page : Int) (issued : Nat),
    opens (okIterations b ep s e page issued m) =
      (List.range m).map fun i => issued + i + 1 := by
  induction m with
  | zero => intro page issued; rfl
  | succ m ih =>
    intro page issued
    rw [okIterations, opens_append, ih, List.range_succ_eq_map]
    simp [opens, okIteration, Function.comp_def]
    intro a _
    omega

theorem closes_okIterations (b ep s e : String) (m : Nat) : ∀ (page : Int) (issued : Nat),
    closes (okIterations b ep s e page issued m) = [] := by
  induction m with
  | zero => intro page issued; rfl
  | succ m ih =>
    intro page issued
    rw [okIterations, closes_append, ih]
    simp [closes, okIteration]

theorem pushed_eq (m : Nat) : ∀ (issued : Nat) (d : List Nat),
    pushed issued d m = ((List.range m).map fun i => issued + i + 1).reverse ++ d := by
  induction m with
  | zero => intro issued d; rfl
  | succ m ih =>
    intro issued d
    rw [pushed, ih, List.range_succ_eq_map]
    simp [Function.comp_def, Nat.add_assoc, Nat.add_comm 1]

/-! ## Whole runs -/

theorem run_all_ok (env : Env) (b ep s e : String) (tp : Int) (fuel n : Nat)
    (hn : tp = n) (hmax : tp < maxInt)
    (hok : ∀ j : Nat, j < n → Succeeds env b ep s e (j + 1) ((j : Int) + 1))
    (hfuel : n < fuel) :
    makeSubsequentRequests fuel env b ep s e tp =
      { events := okIterations b ep s e 1 0 n
          ++ Event.page ((n : Int) + 1) :: (pushed 0 [] n).map Event.close,
        returned := true } := by
  obtain ⟨f, rfl⟩ : ∃ f, fuel = (f + 1) + n := ⟨fuel - n - 1, by omega⟩
  unfold makeSubsequentRequests
  rw [loop_ok_iterate env b ep s e tp n (f + 1) 1 0 [] (by unfold minInt; omega)
    (by omega) (by omega)]
  · rw [loop_exit env b ep s e tp f _ _ _ (by omega)]
    simp [Run.after, runDeferred, add_comm]
  · intro j hj
    have := hok j hj
    simpa [add_comm] using this

theorem run_upto (env : Env) (b ep s e : String) (tp : Int) (fuel k : Nat)
    (hk1 : 1 ≤ k) (hk : (k : Int) ≤ tp) (htp : tp ≤ maxInt)
    (hok : ∀ j : Nat, 1 ≤ j → j < k → Succeeds env b ep s e j j)
    (hfuel : k ≤ fuel) :
    ∃ f, makeSubsequentRequests fuel env b ep s e tp =
      (loop env b ep s e tp (f + 1) k (k - 1) (pushed 0 [] (k - 1))).after
        (okIterations b ep s e 1 0 (k - 1)) := by
  obtain ⟨f, rfl⟩ : ∃ f, fuel = (f + 1) + (k - 1) := ⟨fuel - k, by omega⟩
  refine ⟨f, ?_⟩
  unfold makeSubsequentRequests
  rw [loop_ok_iterate env b ep s e tp (k - 1) (f + 1) 1 0 [] (by unfold minInt; omega)
    (by omega) (by omega)]
  · have e1 : (1 : Int) + ((k - 1 : Nat) : Int) = k := by omega
    rw [e1, Nat.zero_add]
  · intro j hj
    have := hok (j + 1) (by omega) (by omega)
    simpa [add_comm] using this

theorem okEnv_succeeds (b ep s e : String) (j : Nat) (p : Int) :
    Succeeds okEnv b ep s e j p :=
  ⟨_, rfl, rfl⟩

theorem overflow_run (b ep s e : String) :
    makeSubsequentRequests 9223372036854775808 okEnv b ep s e maxInt =
      { events := okIterations b ep s e 1 0 9223372036854775806
          ++ (okIteration b ep s e maxInt 9223372036854775807
          ++ okIteration b ep s e minInt 9223372036854775808),
        returned := false } := by
  unfold makeSubsequentRequests
  rw [show (9223372036854775808 : Nat) = 2 + 9223372036854775806 from rfl]
  rw [loop_ok_iterate okEnv b ep s e maxInt 9223372036854775806 2 1 0 []
    (by unfold minInt; omega) (by unfold maxInt; omega) (by unfold maxInt; omega)
    (fun j _ => okEnv_succeeds b ep s e _ _)]
  have e1 : (1 : Int) + ((9223372036854775806 : Nat) : Int) = maxInt := by
    unfold maxInt; omega
  have e2 : wrapInt (maxInt + 1) = minInt := by
    unfold wrapInt maxInt minInt; omega
  rw [e1, loop_ok okEnv b ep s e maxInt 1 maxInt _ _ _ (le_refl _) rfl rfl, e2,
    loop_ok okEnv b ep s e maxInt 0 minInt _ _ _ (by unfold minInt maxInt; omega) rfl rfl]
  simp [loop, Run.after]

theorem never_returns_at_maxInt (b ep s e : String) (fuel : Nat) :
    ∀ (page : Int) (issued : Nat) (d : List Nat), page ≤ maxInt →
      (loop okEnv b ep s e maxInt fuel page issued d).returned = false := by
  induction fuel with
  | zero => intro page issued d _; rfl
  | succ fuel ih =>
    intro page issued d h
    rw [loop_ok okEnv b ep s e maxInt fuel page issued d _ h rfl rfl]
    exact ih _ _ _ (wrapInt_range _).2

/-! ## Claims about complete runs -/

/-- C1 (amended): for every `totalPages` with `0 ≤ totalPages < maxInt` and every
environment in which each GET and each body read succeeds, the function returns
(any fuel above `totalPages` suffices), it has issued exactly `totalPages` GET
requests, and the requests are those for the pages `1, 2, …, totalPages`, in that
order, each with the URL of its page; for `totalPages = 0` no request is issued. -/
theorem requests_all_pages (env : Env) (baseUrl endpointPath start end_ : String)
    (totalPages : Int) (fuel : Nat)
    (h0 : 0 ≤ totalPages) (hmax : totalPages < maxInt) (hok : AllSucceed env)
    (hfuel : totalPages.toNat < fuel) :
    (makeSubsequentRequests fuel env baseUrl endpointPath start end_ totalPages).returned = true
    ∧ (gets (makeSubsequentRequests fuel env baseUrl endpointPath start end_
        totalPages).events).length = totalPages.toNat
    ∧ gets (makeSubsequentRequests fuel env baseUrl endpointPath start end_ totalPages).events
      = (List.range totalPages.toNat).map fun (i : Nat) =>
          ((i : Int) + 1, urlTemplate baseUrl endpointPath start end_ (dec ((i : Int) + 1))) := by
  have hn : totalPages = (totalPages.toNat : Nat) := (Int.toNat_of_nonneg h0).symm
  have hrun := run_all_ok env baseUrl endpointPath start end_ totalPages fuel totalPages.toNat
    hn hmax (fun j _ => hok _ _) hfuel
  have hg : gets (makeSubsequentRequests fuel env baseUrl endpointPath start end_
      totalPages).events
      = (List.range totalPages.toNat).map fun (i : Nat) =>
          ((i : Int) + 1, urlTemplate baseUrl endpointPath start end_ (dec ((i : Int) + 1))) := by
    rw [hrun]
    simp only [gets_append, gets_okIterations]
    rw [show (Event.page ((totalPages.toNat : Int) + 1) :: (pushed 0 [] totalPages.toNat).map
      Event.close) = [Event.page ((totalPages.toNat : Int) + 1)]
        ++ (pushed 0 [] totalPages.toNat).map Event.close from rfl, gets_append, gets_closes]
    simp [gets, add_comm]
  refine ⟨by rw [hrun], ?_, hg⟩
  rw [hg]
  simp

/-- Witness of C1 (amended): the scenario of the specification, three pages. -/
theorem requests_all_pages_witness :
    (makeSubsequentRequests 4 okEnv "http://x" "events" "2022-11-14T20:00:45.061Z"
      "2023-11-21T20:00:45.061Z" 3).returned = true
    ∧ (gets (makeSubsequentRequests 4 okEnv "http://x" "events" "2022-11-14T20:00:45.061Z"
        "2023-11-21T20:00:45.061Z" 3).events).length = 3
    ∧ gets (makeSubsequentRequests 4 okEnv "http://x" "events" "2022-11-14T20:00:45.061Z"
        "2023-11-21T20:00:45.061Z" 3).events
      = [(1, "http://x/events?startTime=2022-11-14T20:00:45.061Z&endTime=2023-11-21T20:00:45.061Z&page=1"),
         (2, "http://x/events?startTime=2022-11-14T20:00:45.061Z&endTime=2023-11-21T20:00:45.061Z&page=2"),
         (3, "http://x/events?startTime=2022-11-14T20:00:45.061Z&endTime=2023-11-21T20:00:45.061Z&page=3")] :=
  have h := requests_all_pages okEnv "http://x" "events" "2022-11-14T20:00:45.061Z"
    "2023-11-21T20:00:45.061Z" 3 4 (by decide) (by decide) (fun _ _ => ⟨_, rfl, rfl⟩)
    (by decide)
  ⟨h.1, h.2.1, h.2.2.trans (by decide)⟩

/-- C1 (counterexample): with `totalPages = maxInt` and every call succeeding, the
run observed for 2^63 iterations has not returned and has already issued
2^63 requests, more than `totalPages`; the last of them is for the page `minInt`
reached by the overflow of `page++`. -/
theorem requests_exceed_totalPages_at_maxInt :
    (makeSubsequentRequests 9223372036854775808 okEnv "http://x" "events" "s" "e"
      maxInt).returned = false
    ∧ maxInt.toNat < (gets (makeSubsequentRequests 9223372036854775808 okEnv "http://x"
        "events" "s" "e" maxInt).events).length
    ∧ (minInt, "http://x/events?startTime=s&endTime=e&page=-9223372036854775808")
        ∈ gets (makeSubsequentRequests 9223372036854775808 okEnv "http://x" "events" "s" "e"
            maxInt).events := by
  rw [overflow_run]
  refine ⟨rfl, ?_, ?_⟩
  · simp only [gets_append, gets_okIterations, List.length_append, List.length_map,
      List.length_range]
    decide
  · simp only [gets_append, List.mem_append]
    right; right
    decide

/-- C2: if the calls for pages `1 … k-1` succeed and the GET for page `k`
(`1 ≤ k ≤ totalPages`) returns the transport error `err`, the function returns
(fuel `k` suffices) having attempted exactly the requests for pages `1 … k` in
order and none for a later page, and its output is the `k-1` status lines of pages
`1 … k-1` followed by the single line `Error: {err}`. -/
theorem transport_error_stops (env : Env) (baseUrl endpointPath start end_ : String)
    (totalPages : Int) (k : Nat) (err : String) (fuel : Nat)
    (hk1 : 1 ≤ k) (hk : (k : Int) ≤ totalPages) (htp : totalPages ≤ maxInt)
    (hok : ∀ j : Nat, 1 ≤ j → j < k → Succeeds env baseUrl endpointPath start end_ j j)
    (herr : env k (urlTemplate baseUrl endpointPath start end_ (dec k)) = .error err)
    (hfuel : k ≤ fuel) :
    (makeSubsequentRequests fuel env baseUrl endpointPath start end_ totalPages).returned = true
    ∧ gets (makeSubsequentRequests fuel env baseUrl endpointPath start end_ totalPages).events
      = ((List.range k).map fun (i : Nat) =>
          ((i : Int) + 1, urlTemplate baseUrl endpointPath start end_ (dec ((i : Int) + 1))))
    ∧ output (makeSubsequentRequests fuel env baseUrl endpointPath start end_
        totalPages).events
      = ((List.range (k - 1)).map fun (i : Nat) => statusLine (dec ((i : Int) + 1)) start end_)
          ++ [transportErrorLine err] := by
  obtain ⟨f, hrun⟩ := run_upto env baseUrl endpointPath start end_ totalPages fuel k hk1 hk htp
    hok hfuel
  obtain ⟨k', rfl⟩ : ∃ k', k = k' + 1 := ⟨k - 1, by omega⟩
  simp only [Nat.add_sub_cancel] at hrun ⊢
  rw [hrun, loop_transport env baseUrl endpointPath start end_ totalPages f _ k' _ err hk herr]
  refine ⟨rfl, ?_, ?_⟩
  · simp only [Run.after, runDeferred, gets_append, gets_okIterations, gets_closes,
      List.range_succ, List.map_append]
    simp [gets, add_comm]
  · simp only [Run.after, runDeferred, output_append, output_okIterations, output_closes]
    simp [output, add_comm]

/-- Witness of C2: three pages, the GET for page 2 fails: two requests, one status
line, then one error line. -/
theorem transport_error_stops_witness :
    (makeSubsequentRequests 2 (failAt 2 "timeout") "http://x" "events"
      "2022-11-14T20:00:45.061Z" "2023-11-21T20:00:45.061Z" 3).returned = true
    ∧ gets (makeSubsequentRequests 2 (failAt 2 "timeout") "http://x" "events"
        "2022-11-14T20:00:45.061Z" "2023-11-21T20:00:45.061Z" 3).events
      = [(1, "http://x/events?startTime=2022-11-14T20:00:45.061Z&endTime=2023-11-21T20:00:45.061Z&page=1"),
         (2, "http://x/events?startTime=2022-11-14T20:00:45.061Z&endTime=2023-11-21T20:00:45.061Z&page=2")]
    ∧ output (makeSubsequentRequests 2 (failAt 2 "timeout") "http://x" "events"
        "2022-11-14T20:00:45.061Z" "2023-11-21T20:00:45.061Z" 3).events
      = ["Page 1 processed. New startTime: 2022-11-14T20:00:45.061Z, new endTime: 2023-11-21T20:00:45.061Z\n",
         "Error: timeout\n"] :=
  have h := transport_error_stops (failAt 2 "timeout") "http://x" "events"
    "2022-11-14T20:00:45.061Z" "2023-11-21T20:00:45.061Z" 3 2 "timeout" 2
    (by decide) (by decide) (by decide)
    (fun j h1 h2 => by
      obtain rfl : j = 1 := by omega
      exact ⟨_, rfl, rfl⟩)
    rfl (by decide)
  ⟨h.1, h.2.1.trans (by decide), h.2.2.trans (by decide)⟩

/-- C3: if the calls for pages `1 … k-1` succeed and the GET for page `k`
(`1 ≤ k ≤ totalPages`) succeeds but reading its body fails with `err`, the function
returns (fuel `k` suffices) having issued the requests for pages `1 … k` and none
for a later page, and its output is the status lines of pages `1 … k-1` followed by
the single line `Error reading response body: {err}`; whatever the two error
values, that line differs from the transport error line `Error: {e1}`. -/
theorem body_read_error_stops (env : Env) (baseUrl endpointPath start end_ : String)
    (totalPages : Int) (k : Nat) (r : Response) (err : String) (fuel : Nat)
    (hk1 : 1 ≤ k) (hk : (k : Int) ≤ totalPages) (htp : totalPages ≤ maxInt)
    (hok : ∀ j : Nat, 1 ≤ j → j < k → Succeeds env baseUrl endpointPath start end_ j j)
    (hget : env k (urlTemplate baseUrl endpointPath start end_ (dec k)) = .ok r)
    (hread : r.readErr = some err)
    (hfuel : k ≤ fuel) :
    (makeSubsequentRequests fuel env baseUrl endpointPath start end_ totalPages).returned = true
    ∧ gets (makeSubsequentRequests fuel env baseUrl endpointPath start end_ totalPages).events
      = ((List.range k).map fun (i : Nat) =>
          ((i : Int) + 1, urlTemplate baseUrl endpointPath start end_ (dec ((i : Int) + 1))))
    ∧ output (makeSubsequentRequests fuel env baseUrl endpointPath start end_
        totalPages).events
      = ((List.range (k - 1)).map fun (i : Nat) => statusLine (dec ((i : Int) + 1)) start end_)
          ++ [bodyReadErrorLine err]
    ∧ ∀ e1 e2 : String,
        Sprintln [.str "Error reading response body:", .str e2]
          ≠ Sprintln [.str "Error:", .str e1] := by
  obtain ⟨f, hrun⟩ := run_upto env baseUrl endpointPath start end_ totalPages fuel k hk1 hk htp
    hok hfuel
  obtain ⟨k', rfl⟩ : ∃ k', k = k' + 1 := ⟨k - 1, by omega⟩
  simp only [Nat.add_sub_cancel] at hrun ⊢
  rw [hrun, loop_bodyRead env baseUrl endpointPath start end_ totalPages f _ k' _ r err hk hget
    hread]
  refine ⟨rfl, ?_, ?_, ?_⟩
  · simp only [Run.after, runDeferred, gets_append, gets_okIterations, gets_closes,
      List.range_succ, List.map_append]
    simp [gets, add_comm]
  · simp only [Run.after, runDeferred, output_append, output_okIterations, output_closes]
    simp [output, add_comm]
  · intro e1 e2
    rw [Sprintln_transport, Sprintln_bodyRead]
    exact errorLines_differ e1 e2

/-- Witness of C3: three pages, the body read of page 2 fails: two requests, one
status line, then the body read error line. -/
theorem body_read_error_stops_witness :
    (makeSubsequentRequests 2 (readFailAt 2 "unexpected EOF") "http://x" "events"
      "2022-11-14T20:00:45.061Z" "2023-11-21T20:00:45.061Z" 3).returned = true
    ∧ gets (makeSubsequentRequests 2 (readFailAt 2 "unexpected EOF") "http://x" "events"
        "2022-11-14T20:00:45.061Z" "2023-11-21T20:00:45.061Z" 3).events
      = [(1, "http://x/events?startTime=2022-11-14T20:00:45.061Z&endTime=2023-11-21T20:00:45.061Z&page=1"),
         (2, "http://x/events?startTime=2022-11-14T20:00:45.061Z&endTime=2023-11-21T20:00:45.061Z&page=2")]
    ∧ output (makeSubsequentRequests 2 (readFailAt 2 "unexpected EOF") "http://x" "events"
        "2022-11-14T20:00:45.061Z" "2023-11-21T20:00:45.061Z" 3).events
      = ["Page 1 processed. New startTime: 2022-11-14T20:00:45.061Z, new endTime: 2023-11-21T20:00:45.061Z\n",
         "Error reading response body: unexpected EOF\n"] :=
  have h := body_read_error_stops (readFailAt 2 "unexpected EOF") "http://x" "events"
    "2022-11-14T20:00:45.061Z" "2023-11-21T20:00:45.061Z" 3 2 _ "unexpected EOF" 2
    (by decide) (by decide) (by decide)
    (fun j h1 h2 => by
      obtain rfl : j = 1 := by omega
      exact ⟨_, rfl, rfl⟩)
    rfl rfl (by decide)
  ⟨h.1, h.2.1.trans (by decide), h.2.2.1.trans (by decide)⟩

/-- C7 (amended): for every `totalPages` with `0 ≤ totalPages < maxInt`, when every
GET and body read succeeds, the function returns and its output is exactly
`totalPages` lines, the `i`-th being
`Page {i} processed. New startTime: {start}, new endTime: {end}` with the original
`start` and `end` in every line, for `i = 1 … totalPages` in increasing order; for
`totalPages = 0` the output is empty. -/
theorem output_all_pages (env : Env) (baseUrl endpointPath start end_ : String)
    (totalPages : Int) (fuel : Nat)
    (h0 : 0 ≤ totalPages) (hmax : totalPages < maxInt) (hok : AllSucceed env)
    (hfuel : totalPages.toNat < fuel) :
    (makeSubsequentRequests fuel env baseUrl endpointPath start end_ totalPages).returned = true
    ∧ (output (makeSubsequentRequests fuel env baseUrl endpointPath start end_
        totalPages).events).length = totalPages.toNat
    ∧ output (makeSubsequentRequests fuel env baseUrl endpointPath start end_
        totalPages).events
      = (List.range totalPages.toNat).map fun (i : Nat) =>
          statusLine (dec ((i : Int) + 1)) start end_ := by
  have hn : totalPages = (totalPages.toNat : Nat) := (Int.toNat_of_nonneg h0).symm
  have hrun := run_all_ok env baseUrl endpointPath start end_ totalPages fuel totalPages.toNat
    hn hmax (fun j _ => hok _ _) hfuel
  have hg : output (makeSubsequentRequests fuel env baseUrl endpointPath start end_
      totalPages).events
      = (List.range totalPages.toNat).map fun (i : Nat) =>
          statusLine (dec ((i : Int) + 1)) start end_ := by
    rw [hrun]
    simp only [output_append, output_okIterations]
    rw [show (Event.page ((totalPages.toNat : Int) + 1) :: (pushed 0 [] totalPages.toNat).map
      Event.close) = [Event.page ((totalPages.toNat : Int) + 1)]
        ++ (pushed 0 [] totalPages.toNat).map Event.close from rfl, output_append,
      output_closes]
    simp [output, add_comm]
  refine ⟨by rw [hrun], ?_, hg⟩
  rw [hg]
  simp

/-- Witness of C7 (amended): the scenario of the specification, three pages, gives
three status lines with the same `start` and `end`. -/
theorem output_all_pages_witness :
    (makeSubsequentRequests 4 okEnv "http://x" "events" "2022-11-14T20:00:45.061Z"
      "2023-11-21T20:00:45.061Z" 3).returned = true
    ∧ (output (makeSubsequentRequests 4 okEnv "http://x" "events" "2022-11-14T20:00:45.061Z"
        "2023-11-21T20:00:45.061Z" 3).events).length = 3
    ∧ output (makeSubsequentRequests 4 okEnv "http://x" "events" "2022-11-14T20:00:45.061Z"
        "2023-11-21T20:00:45.061Z" 3).events
      = ["Page 1 processed. New startTime: 2022-11-14T20:00:45.061Z, new endTime: 2023-11-21T20:00:45.061Z\n",
         "Page 2 processed. New startTime: 2022-11-14T20:00:45.061Z, new endTime: 2023-11-21T20:00:45.061Z\n",
         "Page 3 processed. New startTime: 2022-11-14T20:00:45.061Z, new endTime: 2023-11-21T20:00:45.061Z\n"] :=
  have h := output_all_pages okEnv "http://x" "events" "2022-11-14T20:00:45.061Z"
    "2023-11-21T20:00:45.061Z" 3 4 (by decide) (by decide) (fun _ _ => ⟨_, rfl, rfl⟩)
    (by decide)
  ⟨h.1, h.2.1, h.2.2.trans (by decide)⟩

/-- C7 (counterexample): with `totalPages = maxInt` and every call succeeding, the
output of the run observed for 2^63 iterations already has 2^63 lines, more than
`totalPages`, and contains a status line for the page `minInt`. -/
theorem output_exceeds_totalPages_at_maxInt :
    maxInt.toNat < (output (makeSubsequentRequests 9223372036854775808 okEnv "http://x"
        "events" "s" "e" maxInt).events).length
    ∧ "Page -9223372036854775808 processed. New startTime: s, new endTime: e\n"
        ∈ output (makeSubsequentRequests 9223372036854775808 okEnv "http://x" "events" "s" "e"
            maxInt).events := by
  rw [overflow_run]
  refine ⟨?_, ?_⟩
  · simp only [output_append, output_okIterations, List.length_append, List.length_map,
      List.length_range]
    decide
  · simp only [output_append, List.mem_append]
    right; right
    decide

/-! ## The loop variable -/

theorem loop_pages (env : Env) (b ep s e : String) (tp : Int) (htp : tp < maxInt)
    (fuel : Nat) : ∀ (page : Int) (issued : Nat) (d : List Nat),
    1 ≤ page → page ≤ tp + 1 →
    (∃ m : Nat, page + (m : Int) ≤ tp + 2 ∧
      pages (loop env b ep s e tp fuel page issued d).events
        = (List.range m).map fun (i : Nat) => page + (i : Int))
    ∧ ((gets (loop env b ep s e tp fuel page issued d).events).length : Int) + page ≤ tp + 1
    ∧ ((tp + 1 - page).toNat < fuel →
        (loop env b ep s e tp fuel page issued d).returned = true) := by
  induction fuel with
  | zero =>
    intro page issued d h1 h2
    refine ⟨⟨0, by omega, rfl⟩, ?_, ?_⟩
    · simp [loop, gets]; omega
    · intro h; omega
  | succ fuel ih =>
    intro page issued d h1 h2
    by_cases hle : page ≤ tp
    · cases hget : env (issued + 1) (urlTemplate b ep s e (dec page)) with
      | error err =>
        rw [loop_transport env b ep s e tp fuel page issued d err hle hget]
        refine ⟨⟨1, by push_cast; omega, ?_⟩, ?_, fun _ => rfl⟩
        · simp only [Run.after, runDeferred, pages_append, pages_closes]
          simp [pages, List.range_succ]
        · simp only [Run.after, runDeferred, gets_append, gets_closes]
          simp [gets]; omega
      | ok r =>
        cases hread : r.readErr with
        | some err =>
          rw [loop_bodyRead env b ep s e tp fuel page issued d r err hle hget hread]
          refine ⟨⟨1, by push_cast; omega, ?_⟩, ?_, fun _ => rfl⟩
          · simp only [Run.after, runDeferred, pages_append, pages_closes]
            simp [pages, List.range_succ]
          · simp only [Run.after, runDeferred, gets_append, gets_closes]
            simp [gets]; omega
        | none =>
          rw [loop_ok env b ep s e tp fuel page issued d r hle hget hread,
            wrapInt_of_range (by unfold minInt; omega) (by omega)]
          obtain ⟨⟨m, hm1, hm2⟩, hg, hret⟩ := ih (page + 1) (issued + 1) ((issued + 1) :: d)
            (by omega) (by omega)
          refine ⟨⟨m + 1, by push_cast; omega, ?_⟩, ?_, ?_⟩
          · simp only [Run.after, pages_append, hm2, List.range_succ_eq_map]
            simp [pages, okIteration, Function.comp_def, add_assoc, add_comm (1 : Int)]
          · have h1 : (gets (okIteration b ep s e page (issued + 1))).length = 1 := rfl
            simp only [Run.after, gets_append, List.length_append, h1]
            push_cast
            omega
          · intro hf
            exact hret (by omega)
    · rw [loop_exit env b ep s e tp fuel page issued d hle]
      refine ⟨⟨1, by push_cast; omega, ?_⟩, ?_, fun _ => rfl⟩
      · simp only [Run.after, runDeferred, pages_append, pages_closes]
        simp [pages, List.range_succ]
      · simp only [Run.after, runDeferred, gets_append, gets_closes]
        simp [gets]; omega

/-- C9 (amended): for every `totalPages` with `0 ≤ totalPages < maxInt` and every
environment, the values the loop variable takes are `1, 2, …, m` for some
`m ≤ totalPages + 1` (each the exact successor of the one before, so strictly
increasing and never wrapped around, and never above `totalPages + 1`), the loop
body runs at most `totalPages` times, and the function returns once more than
`totalPages` evaluations of the loop condition are allowed. -/
theorem page_counter_bounded (env : Env) (baseUrl endpointPath start end_ : String)
    (totalPages : Int) (fuel : Nat) (h0 : 0 ≤ totalPages) (hmax : totalPages < maxInt) :
    (∃ m : Nat, (m : Int) ≤ totalPages + 1 ∧
      pages (makeSubsequentRequests fuel env baseUrl endpointPath start end_
          totalPages).events
        = (List.range m).map fun (i : Nat) => (i : Int) + 1)
    ∧ (gets (makeSubsequentRequests fuel env baseUrl endpointPath start end_
          totalPages).events).length ≤ totalPages.toNat
    ∧ (totalPages.toNat < fuel →
        (makeSubsequentRequests fuel env baseUrl endpointPath start end_
          totalPages).returned = true) := by
  obtain ⟨⟨m, hm1, hm2⟩, hg, hret⟩ :=
    loop_pages env baseUrl endpointPath start end_ totalPages hmax fuel 1 0 []
      (le_refl _) (by omega)
  refine ⟨⟨m, by omega, ?_⟩, ?_, ?_⟩
  · unfold makeSubsequentRequests
    rw [hm2]
    simp [add_comm]
  · unfold makeSubsequentRequests
    omega
  · intro hf
    exact hret (by omega)

/-- Witness of C9 (amended): three pages, the second request failing. -/
theorem page_counter_bounded_witness :
    (∃ m : Nat, (m : Int) ≤ 3 + 1 ∧
      pages (makeSubsequentRequests 4 (failAt 2 "timeout") "http://x" "events" "s" "e"
          3).events
        = (List.range m).map fun (i : Nat) => (i : Int) + 1)
    ∧ (gets (makeSubsequentRequests 4 (failAt 2 "timeout") "http://x" "events" "s" "e"
          3).events).length ≤ (3 : Int).toNat
    ∧ ((3 : Int).toNat < 4 →
        (makeSubsequentRequests 4 (failAt 2 "timeout") "http://x" "events" "s" "e"
          3).returned = true) :=
  page_counter_bounded (failAt 2 "timeout") "http://x" "events" "s" "e" 3 4
    (by decide) (by decide)

/-- C9 (counterexample): with `totalPages = maxInt` and every call succeeding, the
loop variable wraps around to `minInt` (it is among the values the loop condition
is evaluated with) and the function has not returned after any number of
iterations; with `totalPages = -1` the loop variable holds `1`, which exceeds
`totalPages + 1 = 0`. -/
theorem page_counter_wraps_at_maxInt :
    (minInt ∈ pages (makeSubsequentRequests 9223372036854775808 okEnv "http://x" "events"
        "s" "e" maxInt).events
      ∧ ∀ fuel : Nat, (makeSubsequentRequests fuel okEnv "http://x" "events" "s" "e"
          maxInt).returned = false)
    ∧ pages (makeSubsequentRequests 1 okEnv "http://x" "events" "s" "e" (-1)).events = [1]
    ∧ ((-1 : Int) + 1 < 1) := by
  refine ⟨⟨?_, ?_⟩, by decide, by decide⟩
  · rw [overflow_run]
    simp only [pages_append, List.mem_append]
    right; right
    decide
  · intro fuel
    exact never_returns_at_maxInt _ _ _ _ fuel 1 0 [] (by decide)

/-! ## Independence of status codes and contents -/

theorem loop_congr (env1 env2 : Env) (b ep s e : String) (tp : Int)
    (h : ∀ (n : Nat) (url : String), failureOf (env1 n url) = failureOf (env2 n url))
    (fuel : Nat) : ∀ (page : Int) (issued : Nat) (d : List Nat),
    loop env1 b ep s e tp fuel page issued d = loop env2 b ep s e tp fuel page issued d := by
  induction fuel with
  | zero => intro page issued d; rfl
  | succ fuel ih =>
    intro page issued d
    by_cases hle : page ≤ tp
    · have hf := h (issued + 1) (urlTemplate b ep s e (dec page))
      cases h1 : env1 (issued + 1) (urlTemplate b ep s e (dec page)) with
      | error err1 =>
        cases h2 : env2 (issued + 1) (urlTemplate b ep s e (dec page)) with
        | error err2 =>
          rw [h1, h2] at hf
          simp only [failureOf, Option.some.injEq, Failure.transport.injEq] at hf
          subst hf
          rw [loop_transport env1 b ep s e tp fuel page issued d err1 hle h1,
            loop_transport env2 b ep s e tp fuel page issued d err1 hle h2]
        | ok r2 =>
          rw [h1, h2] at hf
          cases hr2 : r2.readErr <;> simp [failureOf, hr2] at hf
      | ok r1 =>
        cases h2 : env2 (issued + 1) (urlTemplate b ep s e (dec page)) with
        | error err2 =>
          rw [h1, h2] at hf
          cases hr1 : r1.readErr <;> simp [failureOf, hr1] at hf
        | ok r2 =>
          rw [h1, h2] at hf
          cases hr1 : r1.readErr with
          | none =>
            cases hr2 : r2.readErr with
            | none =>
              rw [loop_ok env1 b ep s e tp fuel page issued d r1 hle h1 hr1,
                loop_ok env2 b ep s e tp fuel page issued d r2 hle h2 hr2, ih]
            | some err2 => simp [failureOf, hr1, hr2] at hf
          | some err1 =>
            cases hr2 : r2.readErr with
            | none => simp [failureOf, hr1, hr2] at hf
            | some err2 =>
              simp only [failureOf, hr1, hr2, Option.map_some', Option.some.injEq,
                Failure.bodyRead.injEq] at hf
              subst hf
              rw [loop_bodyRead env1 b ep s e tp fuel page issued d r1 err1 hle h1 hr1,
                loop_bodyRead env2 b ep s e tp fuel page issued d r2 err1 hle h2 hr2]
    · rw [loop_exit env1 b ep s e tp fuel page issued d hle,
        loop_exit env2 b ep s e tp fuel page issued d hle]

/-- C8: two environments that agree, call by call, on whether the GET fails, on
whether the body read fails and on the error values, but may differ in status
codes, headers and body bytes, give the same run: the same request URLs and the
same output (for every number of iterations observed, so also for runs that do not
return). In particular, when every call succeeds, the run is the same whatever the
status codes are: a non-2xx response is treated like any other and the loop goes
on to the next page. -/
theorem status_and_body_ignored (env1 env2 : Env) (baseUrl endpointPath start end_ : String)
    (totalPages : Int) (fuel : Nat)
    (h : ∀ (n : Nat) (url : String), failureOf (env1 n url) = failureOf (env2 n url)) :
    makeSubsequentRequests fuel env1 baseUrl endpointPath start end_ totalPages
      = makeSubsequentRequests fuel env2 baseUrl endpointPath start end_ totalPages
    ∧ requests (makeSubsequentRequests fuel env1 baseUrl endpointPath start end_
        totalPages).events
      = requests (makeSubsequentRequests fuel env2 baseUrl endpointPath start end_
        totalPages).events
    ∧ output (makeSubsequentRequests fuel env1 baseUrl endpointPath start end_
        totalPages).events
      = output (makeSubsequentRequests fuel env2 baseUrl endpointPath start end_
        totalPages).events
    ∧ ∀ (statusCode : Nat) (header : List (String × String)) (body : List Nat),
        makeSubsequentRequests fuel (constEnv statusCode header body) baseUrl endpointPath
            start end_ totalPages
          = makeSubsequentRequests fuel okEnv baseUrl endpointPath start end_ totalPages := by
  have hrun := loop_congr env1 env2 baseUrl endpointPath start end_ totalPages h fuel 1 0 []
  refine ⟨hrun, ?_, ?_, ?_⟩
  · unfold makeSubsequentRequests; rw [hrun]
  · unfold makeSubsequentRequests; rw [hrun]
  · intro statusCode header body
    exact loop_congr (constEnv statusCode header body) okEnv baseUrl endpointPath start end_
      totalPages (fun _ _ => rfl) fuel 1 0 []

/-- Witness of C8: an environment answering every request with status 500 and a
body against the one answering 200 with an empty body; three pages. -/
theorem status_and_body_ignored_witness :
    makeSubsequentRequests 4 (constEnv 500 [("Retry-After", "1")] [111, 111, 112]) "http://x"
        "events" "s" "e" 3
      = makeSubsequentRequests 4 okEnv "http://x" "events" "s" "e" 3
    ∧ requests (makeSubsequentRequests 4 (constEnv 500 [("Retry-After", "1")] [111, 111, 112])
        "http://x" "events" "s" "e" 3).events
      = ["http://x/events?startTime=s&endTime=e&page=1",
         "http://x/events?startTime=s&endTime=e&page=2",
         "http://x/events?startTime=s&endTime=e&page=3"] :=
  have h := status_and_body_ignored (constEnv 500 [("Retry-After", "1")] [111, 111, 112]) okEnv
    "http://x" "events" "s" "e" 3 4 (fun _ _ => rfl)
  ⟨h.1, h.2.1.trans (by decide)⟩

/-! ## Deferred closes -/

theorem loop_closes (env : Env) (b ep s e : String) (tp : Int) (fuel : Nat) :
    ∀ (page : Int) (issued : Nat) (d : List Nat),
    closes (loop env b ep s e tp fuel page issued d).events
      = if (loop env b ep s e tp fuel page issued d).returned
        then (opens (loop env b ep s e tp fuel page issued d).events).reverse ++ d
        else [] := by
  induction fuel with
  | zero => intro page issued d; rfl
  | succ fuel ih =>
    intro page issued d
    by_cases hle : page ≤ tp
    · cases hget : env (issued + 1) (urlTemplate b ep s e (dec page)) with
      | error err =>
        rw [loop_transport env b ep s e tp fuel page issued d err hle hget]
        simp only [Run.after, runDeferred, closes_append, closes_closes, opens_append,
          opens_closes]
        simp [closes, opens]
      | ok r =>
        cases hread : r.readErr with
        | some err =>
          rw [loop_bodyRead env b ep s e tp fuel page issued d r err hle hget hread]
          simp only [Run.after, runDeferred, closes_append, closes_closes, opens_append,
            opens_closes]
          simp [closes, opens]
        | none =>
          rw [loop_ok env b ep s e tp fuel page issued d r hle hget hread]
          simp only [Run.after, closes_append, opens_append, ih]
          have h1 : closes (okIteration b ep s e page (issued + 1)) = [] := rfl
          have h2 : opens (okIteration b ep s e page (issued + 1)) = [issued + 1] := rfl
          rw [h1, h2]
          split <;> simp
    · rw [loop_exit env b ep s e tp fuel page issued d hle]
      simp only [Run.after, runDeferred, closes_append, closes_closes, opens_append,
        opens_closes]
      simp [closes, opens]

theorem loop_opens (env : Env) (b ep s e : String) (tp : Int) (fuel : Nat) :
    ∀ (page : Int) (issued : Nat) (d : List Nat),
    opens (loop env b ep s e tp fuel page issued d).events
      = successfulFrom env issued (gets (loop env b ep s e tp fuel page issued d).events) := by
  induction fuel with
  | zero => intro page issued d; rfl
  | succ fuel ih =>
    intro page issued d
    by_cases hle : page ≤ tp
    · cases hget : env (issued + 1) (urlTemplate b ep s e (dec page)) with
      | error err =>
        rw [loop_transport env b ep s e tp fuel page issued d err hle hget]
        simp only [Run.after, runDeferred, gets_append, gets_closes, opens_append,
          opens_closes]
        simp [gets, opens, successfulFrom, hget, isOk]
      | ok r =>
        cases hread : r.readErr with
        | some err =>
          rw [loop_bodyRead env b ep s e tp fuel page issued d r err hle hget hread]
          simp only [Run.after, runDeferred, gets_append, gets_closes, opens_append,
            opens_closes]
          simp [gets, opens, successfulFrom, hget, isOk]
        | none =>
          rw [loop_ok env b ep s e tp fuel page issued d r hle hget hread]
          simp only [Run.after, gets_append, opens_append, ih]
          have h1 : gets (okIteration b ep s e page (issued + 1))
              = [(page, urlTemplate b ep s e (dec page))] := rfl
          have h2 : opens (okIteration b ep s e page (issued + 1)) = [issued + 1] := rfl
          rw [h1, h2]
          simp [successfulFrom, hget, isOk]
    · rw [loop_exit env b ep s e tp fuel page issued d hle]
      simp only [Run.after, runDeferred, gets_append, gets_closes, opens_append,
        opens_closes]
      simp [gets, opens, successfulFrom]

theorem successfulFrom_sorted (env : Env) (reqs : List (Int × String)) : ∀ n : Nat,
    (∀ h ∈ successfulFrom env n reqs, n < h)
    ∧ (successfulFrom env n reqs).Pairwise (· < ·) := by
  induction reqs with
  | nil => intro n; simp [successfulFrom]
  | cons x rest ih =>
    intro n
    obtain ⟨p, url⟩ := x
    obtain ⟨ih1, ih2⟩ := ih (n + 1)
    unfold successfulFrom
    split
    · refine ⟨?_, ?_⟩
      · intro h hh
        rcases List.mem_cons.1 hh with rfl | hh
        · omega
        · have := ih1 h hh; omega
      · exact List.pairwise_cons.2 ⟨fun h hh => ih1 h hh, ih2⟩
    · exact ⟨fun h hh => by have := ih1 h hh; omega, ih2⟩

/-- C10: in every run, once the function has returned (on any exit path), the
bodies closed are exactly the bodies of the requests whose GET succeeded, each
closed exactly once, the last opened first; no close is performed for a request
whose GET returned an error, and the number of closes equals the number of
successful GETs. Before the function returns no body is closed. -/
theorem closes_match_successful_gets (env : Env) (baseUrl endpointPath start end_ : String)
    (totalPages : Int) (fuel : Nat) :
    closes (makeSubsequentRequests fuel env baseUrl endpointPath start end_ totalPages).events
      = (if (makeSubsequentRequests fuel env baseUrl endpointPath start end_
            totalPages).returned
        then (successfulGets env (makeSubsequentRequests fuel env baseUrl endpointPath start
            end_ totalPages).events).reverse
        else [])
    ∧ (successfulGets env (makeSubsequentRequests fuel env baseUrl endpointPath start
            end_ totalPages).events).Nodup
    ∧ (closes (makeSubsequentRequests fuel env baseUrl endpointPath start end_
          totalPages).events).Nodup
    ∧ ((makeSubsequentRequests fuel env baseUrl endpointPath start end_
            totalPages).returned = true →
        (closes (makeSubsequentRequests fuel env baseUrl endpointPath start end_
            totalPages).events).length
          = (successfulGets env (makeSubsequentRequests fuel env baseUrl endpointPath start
              end_ totalPages).events).length) := by
  have hc := loop_closes env baseUrl endpointPath start end_ totalPages fuel 1 0 []
  have ho := loop_opens env baseUrl endpointPath start end_ totalPages fuel 1 0 []
  have hs := (successfulFrom_sorted env
    (gets (makeSubsequentRequests fuel env baseUrl endpointPath start end_
      totalPages).events) 0).2
  have hnd : (successfulGets env (makeSubsequentRequests fuel env baseUrl endpointPath start
      end_ totalPages).events).Nodup :=
    hs.imp (fun h => Nat.ne_of_lt h)
  have heq : closes (makeSubsequentRequests fuel env baseUrl endpointPath start end_
        totalPages).events
      = (if (makeSubsequentRequests fuel env baseUrl endpointPath start end_
            totalPages).returned
        then (successfulGets env (makeSubsequentRequests fuel env baseUrl endpointPath start
            end_ totalPages).events).reverse
        else []) := by
    unfold successfulGets makeSubsequentRequests
    rw [hc, ho, List.append_nil]
  refine ⟨heq, hnd, ?_, ?_⟩
  · rw [heq]
    split
    · exact List.nodup_reverse.2 hnd
    · exact List.nodup_nil
  · intro hret
    rw [heq, hret]
    simp

/-- Witness of C10: three pages, the second request failing: one GET succeeded,
one body is closed. -/
theorem closes_match_successful_gets_witness :
    closes (makeSubsequentRequests 4 (failAt 2 "timeout") "http://x" "events" "s" "e"
      3).events = [1]
    ∧ successfulGets (failAt 2 "timeout") (makeSubsequentRequests 4 (failAt 2 "timeout")
        "http://x" "events" "s" "e" 3).events = [1]
    ∧ (closes (makeSubsequentRequests 4 (failAt 2 "timeout") "http://x" "events" "s" "e"
          3).events).length
        = (successfulGets (failAt 2 "timeout") (makeSubsequentRequests 4 (failAt 2 "timeout")
            "http://x" "events" "s" "e" 3).events).length :=
  have h := closes_match_successful_gets (failAt 2 "timeout") "http://x" "events" "s" "e" 3 4
  ⟨by decide, by decide, h.2.2.2 (by decide)⟩

/-- C6 (the code at the failing input): with three pages and every call succeeding,
no body is open at the first request, body 1 is still open at the second, bodies 1
and 2 at the third; all three bodies are closed only after the last evaluation of
the loop condition, when the function returns. -/
theorem bodies_open_across_iterations :
    openAtGets [] (makeSubsequentRequests 4 okEnv "http://x" "events" "s" "e" 3).events
      = [[], [1], [2, 1]]
    ∧ (makeSubsequentRequests 4 okEnv "http://x" "events" "s" "e" 3).events
      = [.page 1, .get 1 "http://x/events?startTime=s&endTime=e&page=1", .opened 1,
         .readAll 1, .print "Page 1 processed. New startTime: s, new endTime: e\n",
         .page 2, .get 2 "http://x/events?startTime=s&endTime=e&page=2", .opened 2,
         .readAll 2, .print "Page 2 processed. New startTime: s, new endTime: e\n",
         .page 3, .get 3 "http://x/events?startTime=s&endTime=e&page=3", .opened 3,
         .readAll 3, .print "Page 3 processed. New startTime: s, new endTime: e\n",
         .page 4, .close 3, .close 2, .close 1] := by
  constructor <;> decide

/-! ## Decimal rendering of the page number -/

theorem digitChar_isDigit (d : Nat) (h : d < 10) : (digitChar d).isDigit = true := by
  interval_cases d <;> decide

theorem digitChar_toNat (d : Nat) (h : d < 10) : (digitChar d).toNat - 48 = d := by
  interval_cases d <;> decide

theorem digitChar_eq_zero (d : Nat) (h : d < 10) (h0 : digitChar d = '0') : d = 0 := by
  interval_cases d <;> first | rfl | (exact absurd h0 (by decide))

theorem digitsValue_append (cs : List Char) (c : Char) :
    digitsValue (cs ++ [c]) = 10 * digitsValue cs + (c.toNat - 48) := by
  simp [digitsValue, List.foldl_append]

theorem decDigits_numeral (fuel : Nat) : ∀ n : Nat, n < fuel → IsNumeral (decDigits fuel n) n := by
  induction fuel with
  | zero => intro n h; omega
  | succ fuel ih =>
    intro n h
    unfold decDigits
    by_cases h10 : 10 ≤ n
    · rw [if_pos h10]
      obtain ⟨h1, h2, h3, h4⟩ := ih (n / 10) (by omega)
      refine ⟨by simp, ?_, ?_, ?_⟩
      · intro c hc
        rcases List.mem_append.1 hc with hc | hc
        · exact h2 c hc
        · rw [List.mem_singleton.1 hc]
          exact digitChar_isDigit _ (Nat.mod_lt _ (by decide))
      · intro hh
        exfalso
        cases hd : decDigits fuel (n / 10) with
        | nil => exact h1 hd
        | cons x xs =>
          rw [hd] at hh h3 h4
          simp only [List.cons_append, List.head?_cons, Option.some.injEq] at hh
          have := h3 (by rw [hh]; rfl)
          rw [this] at h4
          have h5 : digitsValue ['0'] = 0 := by decide
          omega
      · rw [digitsValue_append, h4, digitChar_toNat _ (Nat.mod_lt _ (by decide))]
        omega
    · rw [if_neg h10]
      refine ⟨by simp, ?_, ?_, ?_⟩
      · intro c hc
        rw [List.mem_singleton.1 hc]
        exact digitChar_isDigit _ (by omega)
      · intro hh
        simp only [List.head?_cons, Option.some.injEq] at hh
        rw [hh]
      · have := digitsValue_append [] (digitChar n)
        simp only [List.nil_append] at this
        rw [this, digitChar_toNat _ (by omega)]
        simp [digitsValue]

theorem fmtInt_numeral (i : Int) : IsIntNumeral (fmtInt i) i := by
  unfold IsIntNumeral fmtInt
  by_cases h : i < 0
  · rw [if_pos h, if_pos h]
    exact ⟨_, rfl, decDigits_numeral _ _ (Nat.lt_succ_self _)⟩
  · rw [if_neg h, if_neg h]
    exact decDigits_numeral _ _ (Nat.lt_succ_self _)

theorem loop_gets_url (env : Env) (b ep s e : String) (tp : Int) (fuel : Nat) :
    ∀ (page : Int) (issued : Nat) (d : List Nat) (p : Int) (url : String),
    (p, url) ∈ gets (loop env b ep s e tp fuel page issued d).events →
      url = urlTemplate b ep s e (dec p) := by
  induction fuel with
  | zero => intro page issued d p url h; simp [loop, gets] at h
  | succ fuel ih =>
    intro page issued d p url h
    by_cases hle : page ≤ tp
    · cases hget : env (issued + 1) (urlTemplate b ep s e (dec page)) with
      | error err =>
        rw [loop_transport env b ep s e tp fuel page issued d err hle hget] at h
        simp only [Run.after, runDeferred, gets_append, gets_closes] at h
        simp [gets] at h
        rw [h.1, h.2]
      | ok r =>
        cases hread : r.readErr with
        | some err =>
          rw [loop_bodyRead env b ep s e tp fuel page issued d r err hle hget hread] at h
          simp only [Run.after, runDeferred, gets_append, gets_closes] at h
          simp [gets] at h
          rw [h.1, h.2]
        | none =>
          rw [loop_ok env b ep s e tp fuel page issued d r hle hget hread] at h
          simp only [Run.after, gets_append] at h
          rcases List.mem_append.1 h with h | h
          · simp [gets, okIteration] at h
            rw [h.1, h.2]
          · exact ih _ _ _ p url h
    · rw [loop_exit env b ep s e tp fuel page issued d hle] at h
      simp only [Run.after, runDeferred, gets_append, gets_closes] at h
      simp [gets] at h

/-- C4: every request of a run, made for the page `p`, has the URL
`baseUrl ++ "/" ++ endpointPath ++ "?startTime=" ++ start ++ "&endTime=" ++ end ++
"&page=" ++ dec p`, which depends on `baseUrl`, `endpointPath`, `start`, `end` and
`p` only (not on the environment, on `totalPages` or on earlier pages), where
`dec p`, the text `%d` produces, is the base-10 numeral of `p` without leading
zeros. -/
theorem request_url_template (env : Env) (baseUrl endpointPath start end_ : String)
    (totalPages : Int) (fuel : Nat) (p : Int) (url : String)
    (h : (p, url) ∈ gets (makeSubsequentRequests fuel env baseUrl endpointPath start end_
      totalPages).events) :
    url = baseUrl ++ "/" ++ endpointPath ++ "?startTime=" ++ start ++ "&endTime=" ++ end_
      ++ "&page=" ++ dec p
    ∧ url = Sprintf "%s/%s?startTime=%s&endTime=%s&page=%d"
        [.str baseUrl, .str endpointPath, .str start, .str end_, .int p]
    ∧ IsIntNumeral (dec p).data p := by
  have hu := loop_gets_url env baseUrl endpointPath start end_ totalPages fuel 1 0 [] p url h
  refine ⟨hu, ?_, fmtInt_numeral p⟩
  rw [Sprintf_url]
  exact hu

/-- Witness of C4: the second request of the scenario of the specification. -/
theorem request_url_template_witness :
    "http://x/events?startTime=2022-11-14T20:00:45.061Z&endTime=2023-11-21T20:00:45.061Z&page=2"
      = "http://x" ++ "/" ++ "events" ++ "?startTime=" ++ "2022-11-14T20:00:45.061Z"
        ++ "&endTime=" ++ "2023-11-21T20:00:45.061Z" ++ "&page=" ++ dec 2
    ∧ IsIntNumeral (dec 2).data 2 :=
  have h := request_url_template okEnv "http://x" "events" "2022-11-14T20:00:45.061Z"
    "2023-11-21T20:00:45.061Z" 3 4 2
    "http://x/events?startTime=2022-11-14T20:00:45.061Z&endTime=2023-11-21T20:00:45.061Z&page=2"
    (by decide)
  ⟨h.1, h.2.2⟩

/-! ## The query string of the request URL -/

theorem cut_not_mem (sep : Char) (cs : List Char) (h : sep ∉ cs) : cut sep cs = (cs, none) := by
  induction cs with
  | nil => rfl
  | cons c cs ih =>
    have h1 : c ≠ sep := fun hc => h (by simp [hc])
    have h2 : sep ∉ cs := fun hc => h (List.mem_cons_of_mem _ hc)
    simp [cut, h1, ih h2]

theorem cut_append (sep : Char) (a b : List Char) (h : sep ∉ a) :
    cut sep (a ++ sep :: b) = (a, some b) := by
  induction a with
  | nil => simp [cut]
  | cons c cs ih =>
    have h1 : c ≠ sep := fun hc => h (by simp [hc])
    have h2 : sep ∉ cs := fun hc => h (List.mem_cons_of_mem _ hc)
    simp [cut, h1, ih h2]

theorem splitOn_not_mem (sep : Char) (cs : List Char) (h : sep ∉ cs) :
    splitOn sep cs = [cs] := by
  induction cs with
  | nil => rfl
  | cons c cs ih =>
    have h1 : c ≠ sep := fun hc => h (by simp [hc])
    have h2 : sep ∉ cs := fun hc => h (List.mem_cons_of_mem _ hc)
    simp [splitOn, h1, ih h2]

theorem splitOn_append (sep : Char) (a b : List Char) (h : sep ∉ a) :
    splitOn sep (a ++ sep :: b) = a :: splitOn sep b := by
  induction a with
  | nil => simp [splitOn]
  | cons c cs ih =>
    have h1 : c ≠ sep := fun hc => h (by simp [hc])
    have h2 : sep ∉ cs := fun hc => h (List.mem_cons_of_mem _ hc)
    simp [splitOn, h1, ih h2]

theorem unescape_plain (cs : List Char) (h : ∀ c ∈ cs, c ≠ '%' ∧ c ≠ '+') :
    unescape cs = some (utf8Bytes cs) := by
  induction cs with
  | nil => rfl
  | cons c cs ih =>
    have h1 := h c (List.mem_cons_self _ _)
    have h2 := ih fun x hx => h x (List.mem_cons_of_mem _ hx)
    unfold unescape
    rw [if_neg h1.1, if_neg h1.2, h2]
    simp [utf8Bytes]

theorem encode_unreserved (cs : List Char) (h : ∀ c ∈ cs, unreserved c = true) :
    encode cs = cs := by
  induction cs with
  | nil => rfl
  | cons c cs ih =>
    have h1 := h c (List.mem_cons_self _ _)
    have h2 := ih fun x hx => h x (List.mem_cons_of_mem _ hx)
    unfold encode at h2 ⊢
    simp [h1, h2]

theorem fmtInt_chars (i : Int) (c : Char) (h : c ∈ fmtInt i) :
    c = '-' ∨ c.isDigit = true := by
  have hn := fmtInt_numeral i
  unfold IsIntNumeral at hn
  split at hn
  · obtain ⟨ds, h1, h2⟩ := hn
    rw [h1] at h
    rcases List.mem_cons.1 h with h | h
    · exact Or.inl h
    · exact Or.inr (h2.2.1 c h)
  · exact Or.inr (hn.2.1 c h)

theorem fmtInt_not_amp (i : Int) : '&' ∉ fmtInt i := by
  intro h
  rcases fmtInt_chars i _ h with h | h
  · exact absurd h (by decide)
  · exact absurd h (by decide)

theorem fmtInt_not_hash (i : Int) : '#' ∉ fmtInt i := by
  intro h
  rcases fmtInt_chars i _ h with h | h
  · exact absurd h (by decide)
  · exact absurd h (by decide)

theorem isEmpty_append_cons (a b : List Char) (c : Char) : (a ++ c :: b).isEmpty = false := by
  cases a <;> rfl

theorem rawQuery_append (pre q : List Char) (h1 : '?' ∉ pre) (h2 : '#' ∉ pre) (h3 : '#' ∉ q) :
    rawQuery (pre ++ '?' :: q) = q := by
  unfold rawQuery
  rw [cut_not_mem '#' _ (by simp [h2, h3]), cut_append '?' pre q h1]
  rfl

theorem queryParams_three (n1 n2 n3 v1 v2 v3 : List Char)
    (h1 : '&' ∉ n1 ∧ '=' ∉ n1) (h2 : '&' ∉ n2 ∧ '=' ∉ n2) (h3 : '&' ∉ n3 ∧ '=' ∉ n3)
    (hv1 : '&' ∉ v1) (hv2 : '&' ∉ v2) (hv3 : '&' ∉ v3) :
    queryParams (n1 ++ '=' :: (v1 ++ '&' :: (n2 ++ '=' :: (v2 ++ '&' :: (n3 ++ '=' :: v3)))))
      = [(n1, v1), (n2, v2), (n3, v3)] := by
  have e1 : n1 ++ '=' :: (v1 ++ '&' :: (n2 ++ '=' :: (v2 ++ '&' :: (n3 ++ '=' :: v3))))
      = (n1 ++ '=' :: v1) ++ '&' :: ((n2 ++ '=' :: v2) ++ '&' :: (n3 ++ '=' :: v3)) := by
    simp
  have s3 := splitOn_not_mem '&' (n3 ++ '=' :: v3) (by simp [h3.1, hv3])
  have s2 := splitOn_append '&' (n2 ++ '=' :: v2) (n3 ++ '=' :: v3) (by simp [h2.1, hv2])
  have s1 := splitOn_append '&' (n1 ++ '=' :: v1) ((n2 ++ '=' :: v2) ++ '&' :: (n3 ++ '=' :: v3))
    (by simp [h1.1, hv1])
  unfold queryParams
  rw [e1, s1, s2, s3]
  simp only [List.filter, isEmpty_append_cons, Bool.not_false, List.map,
    cut_append '=' n1 v1 h1.2, cut_append '=' n2 v2 h2.2, cut_append '=' n3 v3 h3.2,
    Option.getD_some]

theorem urlTemplate_data (b ep s e : String) (p : Int) :
    (urlTemplate b ep s e (dec p)).data
      = (b.data ++ '/' :: ep.data) ++ '?' :: ("startTime".data ++ '=' :: (s.data ++ '&' ::
          ("endTime".data ++ '=' :: (e.data ++ '&' :: ("page".data ++ '=' :: fmtInt p))))) := by
  simp [urlTemplate, dec]

theorem query_of_template (b ep s e : String) (p : Int)
    (hb : ∀ c ∈ b.data ++ ep.data, c ≠ '?' ∧ c ≠ '#')
    (hs : ∀ c ∈ s.data ++ e.data, c ≠ '&' ∧ c ≠ '#' ∧ c ≠ '%' ∧ c ≠ '+') :
    queryParams (rawQuery (urlTemplate b ep s e (dec p)).data)
      = [("startTime".data, s.data), ("endTime".data, e.data), ("page".data, fmtInt p)] := by
  have hs1 : '&' ∉ s.data := fun h => (hs _ (List.mem_append_left _ h)).1 rfl
  have hs2 : '#' ∉ s.data := fun h => (hs _ (List.mem_append_left _ h)).2.1 rfl
  have he1 : '&' ∉ e.data := fun h => (hs _ (List.mem_append_right _ h)).1 rfl
  have he2 : '#' ∉ e.data := fun h => (hs _ (List.mem_append_right _ h)).2.1 rfl
  have hb1 : '?' ∉ b.data := fun h => (hb _ (List.mem_append_left _ h)).1 rfl
  have hb2 : '#' ∉ b.data := fun h => (hb _ (List.mem_append_left _ h)).2 rfl
  have hp1 : '?' ∉ ep.data := fun h => (hb _ (List.mem_append_right _ h)).1 rfl
  have hp2 : '#' ∉ ep.data := fun h => (hb _ (List.mem_append_right _ h)).2 rfl
  have hd1 := fmtInt_not_amp p
  have hd2 := fmtInt_not_hash p
  rw [urlTemplate_data, rawQuery_append _ _ (by simp [hb1, hp1]) (by simp [hb2, hp2])
    (by simp [hs2, he2, hd2])]
  exact queryParams_three _ _ _ _ _ _ (by decide) (by decide) (by decide) hs1 he1 hd1

/-- C5 (amended): every request URL carries `start` and `end` verbatim after
`startTime=` and `endTime=`; no URL-encoding is applied. The values coincide with
`encode start` and `encode end` when `start` and `end` consist of unreserved
characters only. When `baseUrl` and `endpointPath` contain neither `?` nor `#` and
`start` and `end` contain none of `&`, `#`, `%`, `+`, the query string of the URL
has exactly the three parameters `startTime`, `endTime` and `page`, with the values
`start`, `end` and the page numeral, and decoding `startTime` and `endTime` gives
back `start` and `end`. -/
theorem query_values_verbatim (env : Env) (baseUrl endpointPath start end_ : String)
    (totalPages : Int) (fuel : Nat) (p : Int) (url : String)
    (h : (p, url) ∈ gets (makeSubsequentRequests fuel env baseUrl endpointPath start end_
      totalPages).events) :
    url = urlTemplate baseUrl endpointPath start end_ (dec p)
    ∧ ((∀ c ∈ start.data ++ end_.data, unreserved c = true) →
        encode start.data = start.data ∧ encode end_.data = end_.data
        ∧ url = urlTemplate baseUrl endpointPath (String.mk (encode start.data))
            (String.mk (encode end_.data)) (dec p))
    ∧ ((∀ c ∈ baseUrl.data ++ endpointPath.data, c ≠ '?' ∧ c ≠ '#') →
        (∀ c ∈ start.data ++ end_.data, c ≠ '&' ∧ c ≠ '#' ∧ c ≠ '%' ∧ c ≠ '+') →
        queryParams (rawQuery url.data)
            = [("startTime".data, start.data), ("endTime".data, end_.data),
               ("page".data, (dec p).data)]
          ∧ unescape start.data = some (utf8Bytes start.data)
          ∧ unescape end_.data = some (utf8Bytes end_.data)) := by
  have hu := loop_gets_url env baseUrl endpointPath start end_ totalPages fuel 1 0 [] p url h
  refine ⟨hu, ?_, ?_⟩
  · intro hun
    have h1 := encode_unreserved start.data fun c hc => hun c (List.mem_append_left _ hc)
    have h2 := encode_unreserved end_.data fun c hc => hun c (List.mem_append_right _ hc)
    refine ⟨h1, h2, ?_⟩
    rw [h1, h2]
    exact hu
  · intro hb hs
    refine ⟨?_, ?_, ?_⟩
    · rw [hu]
      exact query_of_template baseUrl endpointPath start end_ p hb hs
    · exact unescape_plain _ fun c hc =>
        ⟨(hs c (List.mem_append_left _ hc)).2.2.1, (hs c (List.mem_append_left _ hc)).2.2.2⟩
    · exact unescape_plain _ fun c hc =>
        ⟨(hs c (List.mem_append_right _ hc)).2.2.1, (hs c (List.mem_append_right _ hc)).2.2.2⟩

/-- Witness of C5 (amended): a time range given in milliseconds since the epoch. -/
theorem query_values_verbatim_witness :
    "http://x/events?startTime=1668456045061&endTime=1700596845061&page=1"
      = urlTemplate "http://x" "events" "1668456045061" "1700596845061" (dec 1)
    ∧ "http://x/events?startTime=1668456045061&endTime=1700596845061&page=1"
      = urlTemplate "http://x" "events" (String.mk (encode "1668456045061".data))
          (String.mk (encode "1700596845061".data)) (dec 1)
    ∧ queryParams
          (rawQuery "http://x/events?startTime=1668456045061&endTime=1700596845061&page=1".data)
        = [("startTime".data, "1668456045061".data), ("endTime".data, "1700596845061".data),
           ("page".data, (dec 1).data)]
    ∧ unescape "1668456045061".data = some (utf8Bytes "1668456045061".data) :=
  have h := query_values_verbatim okEnv "http://x" "events" "1668456045061" "1700596845061" 1 2
    1 "http://x/events?startTime=1668456045061&endTime=1700596845061&page=1" (by decide)
  ⟨h.1, (h.2.1 (by decide)).2.2, (h.2.2 (by decide) (by decide)).1,
    (h.2.2 (by decide) (by decide)).2.1⟩

/-- C5 (counterexample): with `start = "a&b=c"` the request URL holds `a&b=c`
verbatim, whereas the encoded value is `a%26b%3Dc`; the URL differs from the one
built with encoded values, and its query string has four parameters, `startTime`
with the value `a`, then `b`, `endTime` and `page`. -/
theorem query_values_not_encoded :
    gets (makeSubsequentRequests 2 okEnv "http://x" "events" "a&b=c" "e" 1).events
      = [(1, "http://x/events?startTime=a&b=c&endTime=e&page=1")]
    ∧ encode "a&b=c".data = "a%26b%3Dc".data
    ∧ "http://x/events?startTime=a&b=c&endTime=e&page=1"
      ≠ urlTemplate "http://x" "events" (String.mk (encode "a&b=c".data))
          (String.mk (encode "e".data)) (dec 1)
    ∧ queryParams (rawQuery "http://x/events?startTime=a&b=c&endTime=e&page=1".data)
      = [("startTime".data, "a".data), ("b".data, "c".data), ("endTime".data, "e".data),
         ("page".data, "1".data)] := by
  refine ⟨by decide, by decide, by decide, by decide⟩

end ApiPagination
